import Mathlib

/-!
Verification development for the monologue-raycast-ext transcript sync engine.

The engine (swift/Sources/TranscriptDB/TranscriptDB.swift) mirrors an external
JSON transcript history into a SQLite database.  We shallowly embed:

* the source record types (`TranscriptJSON`, `TranscriptStatus`) and their
  validity / fallback logic (`isValid`, `effectiveRawText`);
* the mirror database as a functional state (`DBState`) plus a connection with
  SQLite-style transaction semantics (`Conn`: a committed state and an optional
  in-transaction pending state; statements apply to the pending state inside a
  transaction, `ROLLBACK` discards it, `COMMIT` promotes it);
* `DatabaseManager.clearAndInsert` with an explicit fault model (`DBFault`)
  covering the failure points of the code: the `DELETE` statement failing
  (whose result the code discards), the insert `prepare` failing, and the
  N-th insert step failing;
* the exported orchestrator functions `syncTranscripts`, `forceSync`,
  `needsSync`, with the filesystem abstracted as a `Source` (presence,
  modification time, and the outcome of reading + JSON-decoding the document);
* the TypeScript query surface (src/lib/database.ts) as pure read functions,
  and the TypeScript direct-JSON path `getLastCompletedTranscript`
  (src/lib/transcripts.ts).

Doubles are modelled as `Rat` (the claims only compare and order timestamps;
no floating-point arithmetic is involved).  The sync checkpoint is stored by
the code as the string serialization of the mtime and parsed back on read;
since that round-trip is exact we store the value directly.
-/

/-- Swift `EmptyObject` - the payload of a status tag. -/
structure EmptyObject where
deriving DecidableEq

/-- Swift `TranscriptStatus`: disjoint-union-via-optional-fields encoding. -/
structure TranscriptStatus where
  completed : Option EmptyObject
  failedTranscription : Option EmptyObject
deriving DecidableEq

/-- Swift `TranscriptStatus.isCompleted`: `completed != nil`. -/
def TranscriptStatus.isCompleted (s : TranscriptStatus) : Bool :=
  s.completed.isSome

/-- Swift `TranscriptJSON`: one record of the source document's history array. -/
structure TranscriptJSON where
  id : String
  text : Option String
  rawText : Option String
  timestamp : Rat
  sourceType : String
  sourceIdentifier : String
  duration : Rat
  audioPath : Option String
  dictateContext : Option String
  syncedAt : Option Rat
  status : TranscriptStatus
deriving DecidableEq

/-- Swift `TranscriptJSON.isValid`: `text != nil && status.isCompleted`. -/
def TranscriptJSON.isValid (t : TranscriptJSON) : Bool :=
  t.text.isSome && t.status.isCompleted

/-- Swift `TranscriptJSON.effectiveRawText`: `rawText ?? text ?? ""`. -/
def TranscriptJSON.effectiveRawText (t : TranscriptJSON) : String :=
  t.rawText.getD (t.text.getD "")

/-- One row of the `transcripts` table (schema of `createTables`). -/
structure Row where
  id : String
  text : String
  raw_text : String
  timestamp : Rat
  source_type : String
  source_identifier : String
  duration : Rat
  audio_path : Option String
  synced_at : Option Rat
deriving DecidableEq

/-- The row bound by the insert statement of `clearAndInsert` for a record
whose `text` is present (the loop's `guard let text = t.text`); for such a
record `t.text.getD ""` is exactly the unwrapped text. -/
def mkRow (t : TranscriptJSON) : Row :=
  { id := t.id
    text := t.text.getD ""
    raw_text := t.effectiveRawText
    timestamp := t.timestamp
    source_type := t.sourceType
    source_identifier := t.sourceIdentifier
    duration := t.duration
    audio_path := t.audioPath
    synced_at := t.syncedAt }

/-- `INSERT OR REPLACE` keyed on the primary key `id`: any existing row with
the same id is removed and the new row inserted. -/
def upsert (table : List Row) (r : Row) : List Row :=
  table.filter (fun x => !(x.id == r.id)) ++ [r]

/-- The body of `clearAndInsert`'s loop for one record, acting on the table:
`for t in transcripts where t.isValid { guard let text = t.text ... insert }`. -/
def insertStep (table : List Row) (t : TranscriptJSON) : List Row :=
  if t.isValid then
    match t.text with
    | some _ => upsert table (mkRow t)
    | none => table
  else table

/-- The whole insert loop of `clearAndInsert`, starting from `init`. -/
def insertRows (init : List Row) (ts : List TranscriptJSON) : List Row :=
  ts.foldl insertStep init

/-- The table produced by a fault-free `clearAndInsert` (delete-all succeeded,
so the loop starts from the empty table). -/
def tableOf (ts : List TranscriptJSON) : List Row :=
  insertRows [] ts

/-- The records `clearAndInsert` keeps: the `where t.isValid` filter. -/
def validRecs (ts : List TranscriptJSON) : List TranscriptJSON :=
  ts.filter (fun t => t.isValid)

/-- The valid records with a given id (in input order). -/
def validWith (ts : List TranscriptJSON) (i : String) : List TranscriptJSON :=
  ts.filter (fun t => t.isValid && (t.id == i))

/-- Number of insert attempts the loop performs. -/
def validCount (ts : List TranscriptJSON) : Nat :=
  (validRecs ts).length

/-- The database file's logical content: the `transcripts` table and the
`sync_metadata` value for key `json_mtime` (stored by the code as the string
serialization of the mtime; the round-trip is exact, so we keep the value). -/
structure DBState where
  transcripts : List Row
  syncMeta : Option Rat
deriving DecidableEq

/-- A SQLite connection: the committed (durable, reader-visible) state, and
the working state of an open transaction if one is in progress. -/
structure Conn where
  committed : DBState
  pending : Option DBState
deriving DecidableEq

/-- `BEGIN EXCLUSIVE TRANSACTION`. -/
def beginTx (c : Conn) : Conn :=
  { c with pending := some c.committed }

/-- The state a statement on this connection sees. -/
def curState (c : Conn) : DBState :=
  c.pending.getD c.committed

/-- Run one successful statement: inside a transaction it updates the pending
state; outside, it auto-commits. -/
def applyStmt (f : DBState → DBState) (c : Conn) : Conn :=
  match c.pending with
  | some s => { c with pending := some (f s) }
  | none => { c with committed := f c.committed }

/-- `ROLLBACK`: discard the open transaction, keep the committed state. -/
def rollbackTx (c : Conn) : Conn :=
  { c with pending := none }

/-- `COMMIT`: promote the pending state to committed. -/
def commitTx (c : Conn) : Conn :=
  { committed := curState c, pending := none }

/-- Swift `DatabaseError`. -/
inductive DatabaseError where
  | cannotOpen (msg : String)
  | prepareFailed (msg : String)
  | executionFailed (msg : String)
deriving DecidableEq

/-- Fault model for `clearAndInsert`: which statement of the transactional
replace fails. `deleteFail`: the `DELETE FROM transcripts` statement fails
(statement-level failure: it deletes nothing; the code discards its result
with `_ =`). `prepareFail`: `sqlite3_prepare_v2` of the insert fails.
`insertFail n`: the insert step numbered `n` (0-based count of attempted
inserts) returns an error. -/
inductive DBFault where
  | noFault
  | deleteFail
  | prepareFail
  | insertFail (n : Nat)
deriving DecidableEq

/-- The insert-step index at which the fault fires, if any. -/
def DBFault.failIdx : DBFault → Option Nat
  | .insertFail n => some n
  | _ => none

/-- The insert loop of `clearAndInsert` on the connection.  `k` counts insert
attempts (the code's `insertCount`).  On a step failure the code finalizes the
statement, issues `ROLLBACK` and throws `executionFailed`. -/
def insertLoop (failAt : Option Nat) :
    List TranscriptJSON → Nat → Conn → Conn × Option DatabaseError
  | [], _, c => (c, none)
  | t :: rest, k, c =>
    if t.isValid then
      match t.text with
      | some _ =>
        if failAt = some k then
          (rollbackTx c, some (DatabaseError.executionFailed "Insert failed"))
        else
          insertLoop failAt rest (k + 1)
            (applyStmt
              (fun s => { s with transcripts := upsert s.transcripts (mkRow t) }) c)
      | none => insertLoop failAt rest k c
    else insertLoop failAt rest k c

/-- Swift `DatabaseManager.clearAndInsert`: `BEGIN EXCLUSIVE`; `DELETE FROM
transcripts` (result discarded by the code, so a delete failure is ignored and
the loop proceeds over the undeleted table); prepare the insert (on failure:
`ROLLBACK`, throw `prepareFailed`); the insert loop; `COMMIT`.  Returns the
connection after the call together with the thrown error, if any. -/
def clearAndInsert (fault : DBFault) (ts : List TranscriptJSON) (c : Conn) :
    Conn × Option DatabaseError :=
  let c1 := beginTx c
  let c2 :=
    if fault = DBFault.deleteFail then c1
    else applyStmt (fun s => { s with transcripts := [] }) c1
  if fault = DBFault.prepareFail then
    (rollbackTx c2, some (DatabaseError.prepareFailed "prepare failed"))
  else
    match insertLoop fault.failIdx ts 0 c2 with
    | (c3, some e) => (c3, some e)
    | (c3, none) => (commitTx c3, none)

/-- Swift `DatabaseManager.getLastSyncMtime`: read the checkpoint. -/
def getLastSyncMtime (c : Conn) : Option Rat :=
  (curState c).syncMeta

/-- Swift `DatabaseManager.setLastSyncMtime`: `INSERT OR REPLACE` into
`sync_metadata` (auto-committing statement, run outside any transaction). -/
def setLastSyncMtime (m : Rat) (c : Conn) : Conn :=
  applyStmt (fun s => { s with syncMeta := some m }) c

/-- Swift `DatabaseManager.getTranscriptCount`: `SELECT COUNT(*)`. -/
def getTranscriptCount (c : Conn) : Nat :=
  (curState c).transcripts.length

/-- The source document as the orchestrator observes it: whether the file
exists, its filesystem modification time, and the outcome of reading and
JSON-decoding it (`none` models `Data(contentsOf:)` or `JSONDecoder.decode`
throwing). -/
structure Source where
  present : Bool
  mtime : Rat
  parse : Option (List TranscriptJSON)
deriving DecidableEq

/-- Swift `SyncResult`. -/
structure SyncResult where
  success : Bool
  transcriptCount : Nat
  message : String
deriving DecidableEq

/-- An error thrown out of `syncTranscripts` / `forceSync`: either the JSON
read/decode threw, or a `DatabaseError` propagated from the store. -/
inductive SyncError where
  | decodeFailed
  | db (e : DatabaseError)
deriving DecidableEq

/-- Swift `syncTranscripts()`: return early if the JSON file is missing; skip
the rebuild when the stored checkpoint equals the file's mtime; otherwise
decode, `clearAndInsert`, then `setLastSyncMtime`, and report the row count. -/
def syncTranscripts (src : Source) (fault : DBFault) (c : Conn) :
    Conn × Except SyncError SyncResult :=
  if src.present = false then
    (c, Except.ok { success := false, transcriptCount := 0, message := "JSON file not found" })
  else if getLastSyncMtime c = some src.mtime then
    (c, Except.ok { success := true, transcriptCount := getTranscriptCount c,
                    message := "Already in sync" })
  else
    match src.parse with
    | none => (c, Except.error SyncError.decodeFailed)
    | some history =>
      match clearAndInsert fault history c with
      | (c2, some e) => (c2, Except.error (SyncError.db e))
      | (c2, none) =>
        let c3 := setLastSyncMtime src.mtime c2
        (c3, Except.ok { success := true, transcriptCount := getTranscriptCount c3,
                         message := "Synced " ++ toString (getTranscriptCount c3) ++ " transcripts" })

/-- Swift `forceSync()`: same as `syncTranscripts` but first deletes the
database file (`FileManager.removeItem(at: dbPath)`) and reopens it fresh —
losing the previous mirror and checkpoint — and never consults the
checkpoint. -/
def forceSync (src : Source) (fault : DBFault) (c : Conn) :
    Conn × Except SyncError SyncResult :=
  if src.present = false then
    (c, Except.ok { success := false, transcriptCount := 0, message := "JSON file not found" })
  else
    let cFresh : Conn := { committed := { transcripts := [], syncMeta := none }, pending := none }
    match src.parse with
    | none => (cFresh, Except.error SyncError.decodeFailed)
    | some history =>
      match clearAndInsert fault history cFresh with
      | (c2, some e) => (c2, Except.error (SyncError.db e))
      | (c2, none) =>
        let c3 := setLastSyncMtime src.mtime c2
        (c3, Except.ok { success := true, transcriptCount := getTranscriptCount c3,
                         message := "Force synced " ++ toString (getTranscriptCount c3) ++ " transcripts" })

/-- Swift `needsSync()`: `false` when the JSON file does not exist; otherwise
`lastMtime != mtime` when a checkpoint is stored, `true` when none is. -/
def needsSync (src : Source) (c : Conn) : Bool :=
  if src.present = false then false
  else
    match getLastSyncMtime c with
    | some last => if last = src.mtime then false else true
    | none => true

/-- TypeScript `DBTranscript` (src/lib/database.ts): the columns selected by
the query surface (`synced_at` is not selected). -/
structure DBTranscript where
  id : String
  text : String
  rawText : String
  timestamp : Rat
  sourceType : String
  sourceIdentifier : String
  duration : Rat
  audioPath : Option String
deriving DecidableEq

/-- The SELECT column list shared by the queries in src/lib/database.ts. -/
def projectRow (r : Row) : DBTranscript :=
  { id := r.id
    text := r.text
    rawText := r.raw_text
    timestamp := r.timestamp
    sourceType := r.source_type
    sourceIdentifier := r.source_identifier
    duration := r.duration
    audioPath := r.audio_path }

/-- Insert a row into a list already ordered by `timestamp DESC`, keeping it
ordered (the engine step realizing `ORDER BY timestamp DESC`). -/
def insertDesc (r : DBTranscript) : List DBTranscript → List DBTranscript
  | [] => [r]
  | x :: xs => if x.timestamp ≤ r.timestamp then r :: x :: xs else x :: insertDesc r xs

/-- Order a result set by `timestamp DESC`. -/
def sortDesc : List DBTranscript → List DBTranscript
  | [] => []
  | x :: xs => insertDesc x (sortDesc xs)

/-- `QUERIES.allTranscripts`: every row of the table, selected columns,
`ORDER BY timestamp DESC`.  A pure read of the committed state. -/
def allTranscriptsQuery (s : DBState) : List DBTranscript :=
  sortDesc (s.transcripts.map projectRow)

/-- `QUERIES.lastTranscript`: the same select with `LIMIT 1`. -/
def lastTranscriptQuery (s : DBState) : Option DBTranscript :=
  (allTranscriptsQuery s).head?

/-- TypeScript status object after `JSON.parse` (lib/transcripts.ts): the
`"completed" in t.status` test is key presence, so we record which tag keys
the parsed object carries. -/
structure TSStatus where
  completedKey : Bool
  failedTranscriptionKey : Bool
deriving DecidableEq

/-- A transcript record as `JSON.parse` yields it (no validation: any field
the document omitted is absent, regardless of the TypeScript annotations). -/
structure TSTranscript where
  id : String
  text : Option String
  rawText : Option String
  timestamp : Rat
  sourceType : String
  sourceIdentifier : String
  duration : Rat
  audioPath : Option String
  dictateContext : Option String
  syncedAt : Option Rat
  status : TSStatus
deriving DecidableEq

/-- The `code` field of TypeScript `TranscriptError`. -/
inductive TranscriptErrorCode where
  | NOT_FOUND
  | PARSE_ERROR
  | EMPTY
  | NO_COMPLETED
  | DB_ERROR
deriving DecidableEq

/-- TypeScript `getLastCompletedTranscript` (lib/transcripts.ts): throw
`NOT_FOUND` if the history file is unreadable; read + `JSON.parse` (a `none`
outcome models any throw there, mapped to `PARSE_ERROR` by the catch); filter
`history` to records whose status object has a `completed` key; throw
`NO_COMPLETED` if none; else return `completed[0]`, the first such record in
array order. -/
def getLastCompletedTranscript (fileExists : Bool)
    (parsed : Option (List TSTranscript)) :
    Except TranscriptErrorCode TSTranscript :=
  if fileExists = false then
    Except.error TranscriptErrorCode.NOT_FOUND
  else
    match parsed with
    | none => Except.error TranscriptErrorCode.PARSE_ERROR
    | some history =>
      match history.filter (fun t => t.status.completedKey) with
      | [] => Except.error TranscriptErrorCode.NO_COMPLETED
      | t :: _ => Except.ok t

/-! ### Concrete sample data used by witnesses and counterexamples -/

/-- A `completed` status tag. -/
def stCompleted : TranscriptStatus :=
  { completed := some {}, failedTranscription := none }

/-- A `failedTranscription` status tag. -/
def stFailed : TranscriptStatus :=
  { completed := none, failedTranscription := some {} }

/-- A valid record with id `a`. -/
def recA : TranscriptJSON :=
  { id := "a", text := some "hi", rawText := some "hi raw", timestamp := 1,
    sourceType := "app", sourceIdentifier := "com.apple.Terminal", duration := 2,
    audioPath := none, dictateContext := none, syncedAt := none, status := stCompleted }

/-- A second valid record with the same id `a` (later values differ). -/
def recA2 : TranscriptJSON :=
  { id := "a", text := some "hi again", rawText := none, timestamp := 3,
    sourceType := "app", sourceIdentifier := "com.apple.Safari", duration := 4,
    audioPath := none, dictateContext := none, syncedAt := none, status := stCompleted }

/-- A valid record with id `b`. -/
def recB : TranscriptJSON :=
  { id := "b", text := some "yo", rawText := some "yo raw", timestamp := 2,
    sourceType := "app", sourceIdentifier := "com.apple.Terminal", duration := 1,
    audioPath := none, dictateContext := none, syncedAt := none, status := stCompleted }

/-- A valid record with `rawText` absent and `text = "hello"`. -/
def recHello : TranscriptJSON :=
  { id := "h", text := some "hello", rawText := none, timestamp := 9,
    sourceType := "app", sourceIdentifier := "com.apple.Notes", duration := 1,
    audioPath := none, dictateContext := none, syncedAt := none, status := stCompleted }

/-- An idle connection over an empty, never-synced database. -/
def connEmpty : Conn :=
  { committed := { transcripts := [], syncMeta := none }, pending := none }

/-- An idle connection over a mirror holding the row of `recB` and a stored
checkpoint of 5. -/
def connB : Conn :=
  { committed := { transcripts := [mkRow recB], syncMeta := some 5 }, pending := none }

/-- A present source whose read or decode throws. -/
def srcBadParse : Source :=
  { present := true, mtime := 6, parse := none }

/-- A missing source document. -/
def srcMissing : Source :=
  { present := false, mtime := 6, parse := none }

/-- A present source whose mtime equals `connB`'s stored checkpoint. -/
def srcInSync : Source :=
  { present := true, mtime := 5, parse := some [recB] }

/-- A present source with a single valid record. -/
def srcOne : Source :=
  { present := true, mtime := 3, parse := some [recA] }

/-- A present source whose two records are both valid and share id `a`. -/
def srcDup : Source :=
  { present := true, mtime := 7, parse := some [recA, recA2] }

/-- An empty mirror state (for query-surface witnesses). -/
def dbEmpty : DBState :=
  { transcripts := [], syncMeta := none }

/-! ### General-purpose helper lemmas -/

/-- A valid record has its `text` present. -/
theorem isValid_text {t : TranscriptJSON} (h : t.isValid = true) : ∃ x, t.text = some x := by
  unfold TranscriptJSON.isValid at h
  rcases Bool.and_eq_true_iff.mp h with ⟨h1, _⟩
  exact Option.isSome_iff_exists.mp h1

/-- `find?` is the head of `filter`. -/
theorem find?_eq_head?_filter {α : Type} (p : α → Bool) (l : List α) :
    l.find? p = (l.filter p).head? := by
  induction l with
  | nil => rfl
  | cons x xs ih =>
    by_cases hx : p x = true
    · rw [List.find?_cons_of_pos _ hx, List.filter_cons_of_pos hx, List.head?_cons]
    · rw [List.find?_cons_of_neg _ hx, List.filter_cons_of_neg hx, ih]

deriving instance DecidableEq for Except

/-! ### Query surface: sorting lemmas -/

/-- `insertDesc` permutes its input. -/
theorem insertDesc_perm (r : DBTranscript) (l : List DBTranscript) :
    List.Perm (insertDesc r l) (r :: l) := by
  induction l with
  | nil => exact List.Perm.refl _
  | cons x xs ih =>
    by_cases hx : x.timestamp ≤ r.timestamp
    · simp [insertDesc, hx]
    · simp only [insertDesc, hx, if_false]
      exact (ih.cons x).trans (List.Perm.swap r x xs)

/-- `sortDesc` permutes its input. -/
theorem sortDesc_perm (l : List DBTranscript) : List.Perm (sortDesc l) l := by
  induction l with
  | nil => exact List.Perm.refl _
  | cons x xs ih => exact (insertDesc_perm x (sortDesc xs)).trans (ih.cons x)

/-- `insertDesc` preserves the newest-first ordering. -/
theorem insertDesc_pairwise (r : DBTranscript) (l : List DBTranscript)
    (h : List.Pairwise (fun a b => b.timestamp ≤ a.timestamp) l) :
    List.Pairwise (fun a b => b.timestamp ≤ a.timestamp) (insertDesc r l) := by
  induction l with
  | nil => simp [insertDesc]
  | cons x xs ih =>
    rcases List.pairwise_cons.mp h with ⟨hx, hxs⟩
    by_cases hle : x.timestamp ≤ r.timestamp
    · simp only [insertDesc, hle, if_true]
      refine List.pairwise_cons.mpr ⟨?_, h⟩
      intro y hy
      rcases List.mem_cons.mp hy with rfl | hy
      · exact hle
      · exact le_trans (hx y hy) hle
    · simp only [insertDesc, hle, if_false]
      refine List.pairwise_cons.mpr ⟨?_, ih hxs⟩
      intro y hy
      rcases List.mem_cons.mp ((insertDesc_perm r xs).mem_iff.mp hy) with rfl | hy
      · exact le_of_lt (lt_of_not_le hle)
      · exact hx y hy

/-- `sortDesc` output is newest-first. -/
theorem sortDesc_pairwise (l : List DBTranscript) :
    List.Pairwise (fun a b => b.timestamp ≤ a.timestamp) (sortDesc l) := by
  induction l with
  | nil => simp [sortDesc]
  | cons x xs ih => exact insertDesc_pairwise x (sortDesc xs) ih

/-- Claim C9: `allTranscripts` returns every row of the mirror (projected to
the selected columns) ordered newest-first by timestamp; `lastTranscript` is
exactly the first element of that ordering, and is empty on an empty mirror.
Both are modelled as pure functions of the database state: they read and do
not mutate. -/
theorem allTranscripts_sorted_lastTranscript_head (s : DBState) :
    List.Perm (allTranscriptsQuery s) (s.transcripts.map projectRow) ∧
    List.Pairwise (fun a b => b.timestamp ≤ a.timestamp) (allTranscriptsQuery s) ∧
    lastTranscriptQuery s = (allTranscriptsQuery s).head? ∧
    (s.transcripts = [] → lastTranscriptQuery s = none) := by
  refine ⟨sortDesc_perm _, sortDesc_pairwise _, rfl, ?_⟩
  intro h
  simp [lastTranscriptQuery, allTranscriptsQuery, h, sortDesc]

/-- Witness for C9 at a concrete state: the most-recent query on an empty
mirror returns nothing. -/
theorem allTranscripts_sorted_lastTranscript_head_witness :
    lastTranscriptQuery dbEmpty = none :=
  (allTranscripts_sorted_lastTranscript_head dbEmpty).2.2.2 rfl

/-! ### The TypeScript direct-JSON path -/

/-- Claim C10: `getLastCompletedTranscript` bypasses the mirror — it is a
function of the history file alone.  It fails with `NOT_FOUND` when the file
is absent, `PARSE_ERROR` when reading or parsing throws, `NO_COMPLETED` when
no record's status carries the `completed` key, and otherwise returns the
first record (in array order) whose status carries the `completed` key —
with no condition on the `text` field. -/
theorem getLastCompleted_spec (fileExists : Bool) (parsed : Option (List TSTranscript)) :
    (fileExists = false →
      getLastCompletedTranscript fileExists parsed = Except.error TranscriptErrorCode.NOT_FOUND) ∧
    (fileExists = true → parsed = none →
      getLastCompletedTranscript fileExists parsed = Except.error TranscriptErrorCode.PARSE_ERROR) ∧
    (∀ history, fileExists = true → parsed = some history →
      getLastCompletedTranscript fileExists parsed =
        match history.find? (fun t => t.status.completedKey) with
        | some t => Except.ok t
        | none => Except.error TranscriptErrorCode.NO_COMPLETED) := by
  refine ⟨?_, ?_, ?_⟩
  · intro h
    simp [getLastCompletedTranscript, h]
  · intro h hp
    simp [getLastCompletedTranscript, h, hp]
  · intro history h hp
    rw [find?_eq_head?_filter]
    cases hf : history.filter (fun t => t.status.completedKey) with
    | nil => simp [getLastCompletedTranscript, h, hp, hf]
    | cons t rest => simp [getLastCompletedTranscript, h, hp, hf]

/-- A parsed record whose status object lacks the `completed` key. -/
def tsFail : TSTranscript :=
  { id := "f", text := some "x", rawText := none, timestamp := 1,
    sourceType := "app", sourceIdentifier := "com.apple.Terminal", duration := 1,
    audioPath := none, dictateContext := none, syncedAt := none,
    status := { completedKey := false, failedTranscriptionKey := true } }

/-- A parsed record carrying the `completed` key but no `text` field — a
record the sync engine's validity filter would drop. -/
def tsNoText : TSTranscript :=
  { id := "n", text := none, rawText := none, timestamp := 2,
    sourceType := "app", sourceIdentifier := "com.apple.Terminal", duration := 1,
    audioPath := none, dictateContext := none, syncedAt := none,
    status := { completedKey := true, failedTranscriptionKey := false } }

/-- Witness for C10: on a history whose first completed-tagged record has no
`text`, that record is returned (the filter does not require `text`). -/
theorem getLastCompleted_spec_witness :
    getLastCompletedTranscript true (some [tsFail, tsNoText]) = Except.ok tsNoText ∧
    tsNoText.text = none := by
  have h := (getLastCompleted_spec true (some [tsFail, tsNoText])).2.2 [tsFail, tsNoText] rfl rfl
  rw [h]
  exact ⟨by decide, rfl⟩

/-! ### Transaction lemmas for `clearAndInsert` -/

/-- Running the insert loop with no fault scheduled rebuilds the pending
table by folding the per-record step, and throws nothing. -/
theorem insertLoop_noFail (ts : List TranscriptJSON) :
    ∀ (k : Nat) (c : Conn) (s : DBState), c.pending = some s →
      insertLoop none ts k c =
        ({ c with pending := some { s with transcripts := insertRows s.transcripts ts } }, none) := by
  induction ts with
  | nil =>
    intro k c s h
    simp [insertLoop, insertRows, ← h]
  | cons t rest ih =>
    intro k c s h
    by_cases hv : t.isValid
    · rcases isValid_text hv with ⟨x, ht⟩
      have hstep :
          insertLoop none (t :: rest) k c =
            insertLoop none rest (k + 1)
              (applyStmt (fun s => { s with transcripts := upsert s.transcripts (mkRow t) }) c) := by
        simp [insertLoop, hv, ht]
      rw [hstep, ih (k + 1) _ { s with transcripts := upsert s.transcripts (mkRow t) }
            (by simp [applyStmt, h])]
      simp [applyStmt, h, insertRows, insertStep, hv, ht]
    · have hstep : insertLoop none (t :: rest) k c = insertLoop none rest k c := by
        simp [insertLoop, hv]
      rw [hstep, ih k c s h]
      simp [insertRows, insertStep, hv]

/-- The insert loop never touches the committed state, and if it throws it
has already rolled the transaction back (`pending = none`). -/
theorem insertLoop_inv (failAt : Option Nat) (ts : List TranscriptJSON) :
    ∀ (k : Nat) (c : Conn), c.pending.isSome = true →
      (insertLoop failAt ts k c).1.committed = c.committed ∧
      ((insertLoop failAt ts k c).2.isSome = true →
        (insertLoop failAt ts k c).1.pending = none) := by
  induction ts with
  | nil =>
    intro k c _
    simp [insertLoop]
  | cons t rest ih =>
    intro k c hp
    by_cases hv : t.isValid
    · rcases isValid_text hv with ⟨x, ht⟩
      by_cases hk : failAt = some k
      · simp [insertLoop, hv, ht, hk, rollbackTx]
      · have hstep :
            insertLoop failAt (t :: rest) k c =
              insertLoop failAt rest (k + 1)
                (applyStmt (fun s => { s with transcripts := upsert s.transcripts (mkRow t) }) c) := by
          simp [insertLoop, hv, ht, hk]
        rcases Option.isSome_iff_exists.mp hp with ⟨s, hs⟩
        rw [hstep]
        have h2 := ih (k + 1)
          (applyStmt (fun s => { s with transcripts := upsert s.transcripts (mkRow t) }) c)
          (by simp [applyStmt, hs])
        constructor
        · rw [h2.1]; simp [applyStmt, hs]
        · exact h2.2
    · have hstep : insertLoop failAt (t :: rest) k c = insertLoop failAt rest k c := by
        simp [insertLoop, hv]
      rw [hstep]
      exact ih k c hp

/-- If the scheduled insert fault falls inside the range of attempted
inserts, the loop throws. -/
theorem insertLoop_fires (ts : List TranscriptJSON) :
    ∀ (k n : Nat) (c : Conn), k ≤ n → n < k + validCount ts →
      (insertLoop (some n) ts k c).2.isSome = true := by
  induction ts with
  | nil =>
    intro k n c hkn hlt
    simp [validCount, validRecs] at hlt
    omega
  | cons t rest ih =>
    intro k n c hkn hlt
    by_cases hv : t.isValid
    · rcases isValid_text hv with ⟨x, ht⟩
      by_cases hk : n = k
      · simp [insertLoop, hv, ht, hk]
      · have hcount : validCount (t :: rest) = validCount rest + 1 := by
          simp [validCount, validRecs, hv]
        have hstep :
            insertLoop (some n) (t :: rest) k c =
              insertLoop (some n) rest (k + 1)
                (applyStmt (fun s => { s with transcripts := upsert s.transcripts (mkRow t) }) c) := by
          simp [insertLoop, hv, ht, hk]
        rw [hstep]
        exact ih (k + 1) n _ (by omega) (by omega)
    · have hcount : validCount (t :: rest) = validCount rest := by
        simp [validCount, validRecs, hv]
      have hstep : insertLoop (some n) (t :: rest) k c = insertLoop (some n) rest k c := by
        simp [insertLoop, hv]
      rw [hstep]
      exact ih k n c hkn (by omega)

/-- If the loop finishes without throwing, the transaction is still open, the
committed state is untouched, and the pending metadata is unchanged. -/
theorem insertLoop_ok_pending (failAt : Option Nat) (ts : List TranscriptJSON) :
    ∀ (k : Nat) (c : Conn) (s : DBState), c.pending = some s →
      (insertLoop failAt ts k c).2 = none →
      ∃ tb, (insertLoop failAt ts k c).1 =
        { committed := c.committed, pending := some { transcripts := tb, syncMeta := s.syncMeta } } := by
  induction ts with
  | nil =>
    intro k c s h _
    refine ⟨s.transcripts, ?_⟩
    simp [insertLoop, ← h]
  | cons t rest ih =>
    intro k c s h hok
    by_cases hv : t.isValid
    · rcases isValid_text hv with ⟨x, ht⟩
      by_cases hk : failAt = some k
      · rw [show insertLoop failAt (t :: rest) k c =
              (rollbackTx c, some (DatabaseError.executionFailed "Insert failed")) by
            simp [insertLoop, hv, ht, hk]] at hok
        simp at hok
      · have hstep :
            insertLoop failAt (t :: rest) k c =
              insertLoop failAt rest (k + 1)
                (applyStmt (fun s => { s with transcripts := upsert s.transcripts (mkRow t) }) c) := by
          simp [insertLoop, hv, ht, hk]
        rw [hstep] at hok ⊢
        rcases ih (k + 1) _ { s with transcripts := upsert s.transcripts (mkRow t) }
            (by simp [applyStmt, h]) hok with ⟨tb, htb⟩
        refine ⟨tb, ?_⟩
        rw [htb]
        simp [applyStmt, h]
    · have hstep : insertLoop failAt (t :: rest) k c = insertLoop failAt rest k c := by
        simp [insertLoop, hv]
      rw [hstep] at hok ⊢
      exact ih k c s h hok

/-- An idle connection is determined by its committed state. -/
theorem conn_eta (c : Conn) (h : c.pending = none) :
    c = { committed := c.committed, pending := none } := by
  cases c
  simp_all

/-- A fault-free `clearAndInsert` commits the rebuilt table and throws
nothing; the checkpoint value is untouched. -/
theorem clearAndInsert_noFault (ts : List TranscriptJSON) (c : Conn) (_h : c.pending = none) :
    clearAndInsert DBFault.noFault ts c =
      ({ committed := { transcripts := tableOf ts, syncMeta := c.committed.syncMeta },
         pending := none }, none) := by
  have hpend : (applyStmt (fun s => { s with transcripts := [] }) (beginTx c)).pending =
      some { transcripts := [], syncMeta := c.committed.syncMeta } := by
    simp [applyStmt, beginTx]
  unfold clearAndInsert
  simp only [show (DBFault.noFault = DBFault.deleteFail) = False by simp, if_false,
    show (DBFault.noFault = DBFault.prepareFail) = False by simp, DBFault.failIdx]
  rw [insertLoop_noFail ts 0 _ _ hpend]
  simp [commitTx, curState, applyStmt, beginTx, tableOf]

/-- Whenever `clearAndInsert` throws, the connection afterwards is exactly
the one before the call: transaction rolled back, committed state intact. -/
theorem clearAndInsert_error_rolls_back (fault : DBFault) (ts : List TranscriptJSON)
    (c : Conn) (h : c.pending = none) (e : DatabaseError)
    (he : (clearAndInsert fault ts c).2 = some e) :
    (clearAndInsert fault ts c).1 = c := by
  cases fault with
  | noFault =>
    rw [clearAndInsert_noFault ts c h] at he
    simp at he
  | deleteFail =>
    unfold clearAndInsert at he ⊢
    simp only [reduceCtorEq, if_false, if_true, DBFault.failIdx] at he ⊢
    rw [insertLoop_noFail ts 0 (beginTx c) c.committed (by simp [beginTx])] at he ⊢
    simp at he
  | prepareFail =>
    unfold clearAndInsert
    simp [rollbackTx, applyStmt, beginTx, ← conn_eta c h]
  | insertFail n =>
    unfold clearAndInsert at he ⊢
    simp only [reduceCtorEq, if_false, DBFault.failIdx] at he ⊢
    have hpend : (applyStmt (fun s => { s with transcripts := [] }) (beginTx c)).pending =
        some { transcripts := [], syncMeta := c.committed.syncMeta } := by
      simp [applyStmt, beginTx]
    have hinv := insertLoop_inv (some n) ts 0
      (applyStmt (fun s => { s with transcripts := [] }) (beginTx c)) (by simp [hpend])
    rcases hres : insertLoop (some n) ts 0
        (applyStmt (fun s => { s with transcripts := [] }) (beginTx c)) with ⟨c3, err⟩
    rw [hres] at he hinv
    cases err with
    | none => simp at he
    | some e2 =>
      simp only
      have hcomm : c3.committed = c.committed := by
        rw [hinv.1]
        simp [applyStmt, beginTx]
      have hpend3 : c3.pending = none := hinv.2 (by simp)
      rw [conn_eta c3 hpend3, hcomm, ← conn_eta c h]

/-- A prepare failure, or an insert failure within the range of attempted
inserts, makes `clearAndInsert` throw. -/
theorem clearAndInsert_fault_fires (ts : List TranscriptJSON) (c : Conn) (fault : DBFault)
    (hf : fault = DBFault.prepareFail ∨
      ∃ n, fault = DBFault.insertFail n ∧ n < validCount ts) :
    (clearAndInsert fault ts c).2.isSome = true := by
  rcases hf with rfl | ⟨n, rfl, hn⟩
  · simp [clearAndInsert]
  · unfold clearAndInsert
    simp only [reduceCtorEq, if_false, DBFault.failIdx]
    have := insertLoop_fires ts 0 n
      (applyStmt (fun s => { s with transcripts := [] }) (beginTx c)) (Nat.zero_le n)
      (by omega)
    rcases hres : insertLoop (some n) ts 0
        (applyStmt (fun s => { s with transcripts := [] }) (beginTx c)) with ⟨c3, err⟩
    rw [hres] at this
    cases err with
    | none => simp at this
    | some e2 => simp

/-- If `clearAndInsert` does not throw, the connection is idle afterwards and
the checkpoint value is untouched (only the table may have changed). -/
theorem clearAndInsert_ok_state (fault : DBFault) (ts : List TranscriptJSON) (c : Conn)
    (h : c.pending = none) (hok : (clearAndInsert fault ts c).2 = none) :
    (clearAndInsert fault ts c).1.pending = none ∧
    (clearAndInsert fault ts c).1.committed.syncMeta = c.committed.syncMeta := by
  cases fault with
  | noFault => rw [clearAndInsert_noFault ts c h]; exact ⟨rfl, rfl⟩
  | prepareFail => simp [clearAndInsert] at hok
  | deleteFail =>
    unfold clearAndInsert at hok ⊢
    simp only [reduceCtorEq, if_true, if_false, DBFault.failIdx] at hok ⊢
    rw [insertLoop_noFail ts 0 (beginTx c) c.committed (by simp [beginTx])] at hok ⊢
    simp [commitTx, curState, beginTx]
  | insertFail n =>
    unfold clearAndInsert at hok ⊢
    simp only [reduceCtorEq, if_false, DBFault.failIdx] at hok ⊢
    have hpend : (applyStmt (fun s => { s with transcripts := [] }) (beginTx c)).pending =
        some { transcripts := [], syncMeta := c.committed.syncMeta } := by
      simp [applyStmt, beginTx]
    rcases hres : insertLoop (some n) ts 0
        (applyStmt (fun s => { s with transcripts := [] }) (beginTx c)) with ⟨c3, err⟩
    rw [hres] at hok
    cases err with
    | some e2 => simp at hok
    | none =>
      rcases insertLoop_ok_pending (some n) ts 0 _ _ hpend (by rw [hres]) with ⟨tb, htb⟩
      rw [hres] at htb
      simp only at htb ⊢
      rw [htb]
      simp [commitTx, curState, applyStmt, beginTx]

/-! ### Claim C1: atomicity of the transactional replace under failure -/

/-- Counterexample to claim C1 as stated: when the `DELETE FROM transcripts`
statement itself fails, `clearAndInsert` does not roll back — the code
discards the delete's result (`_ = sqlite3_exec(db, "DELETE ...")`), keeps
inserting and commits.  Starting from a mirror holding exactly `recB`'s row,
a replace with input `[recA]` whose delete fails surfaces no error and
commits a table that is neither the old row set nor the new one. -/
theorem clearAndInsert_deleteFail_commits_merge :
    (clearAndInsert DBFault.deleteFail [recA] connB).2 = none ∧
    (clearAndInsert DBFault.deleteFail [recA] connB).1.committed.transcripts ≠
      connB.committed.transcripts ∧
    (clearAndInsert DBFault.deleteFail [recA] connB).1.committed.transcripts ≠
      tableOf [recA] := by
  decide

/-- Claim C1, amended: if the transactional replace fails while preparing the
insert statement or while inserting the Nth record, the whole transaction is
rolled back and the connection (hence the mirror's `transcripts` table) is
exactly as before the call — never empty, never partial.  (A failure of the
delete statement is not covered: its result is discarded by the code.) -/
theorem clearAndInsert_atomic_on_failure (ts : List TranscriptJSON) (c : Conn)
    (fault : DBFault) (h : c.pending = none)
    (hf : fault = DBFault.prepareFail ∨
      ∃ n, fault = DBFault.insertFail n ∧ n < validCount ts) :
    (clearAndInsert fault ts c).2.isSome = true ∧
    (clearAndInsert fault ts c).1 = c := by
  have hfire := clearAndInsert_fault_fires ts c fault hf
  rcases Option.isSome_iff_exists.mp hfire with ⟨e, he⟩
  exact ⟨hfire, clearAndInsert_error_rolls_back fault ts c h e he⟩

/-- Witness for C1 (amended): a failure on the 0th insert over a mirror
holding `recB`'s row throws and leaves the mirror exactly as it was. -/
theorem clearAndInsert_atomic_on_failure_witness :
    (clearAndInsert (DBFault.insertFail 0) [recA] connB).2.isSome = true ∧
    (clearAndInsert (DBFault.insertFail 0) [recA] connB).1 = connB :=
  clearAndInsert_atomic_on_failure [recA] connB (DBFault.insertFail 0) rfl
    (Or.inr ⟨0, rfl, by decide⟩)

/-! ### Orchestrator lemmas -/

/-- On an idle connection the checkpoint read returns the committed value. -/
theorem getLastSyncMtime_idle (c : Conn) (h : c.pending = none) :
    getLastSyncMtime c = c.committed.syncMeta := by
  simp [getLastSyncMtime, curState, h]

/-- On an idle connection the row count reads the committed table. -/
theorem getTranscriptCount_idle (c : Conn) (h : c.pending = none) :
    getTranscriptCount c = c.committed.transcripts.length := by
  simp [getTranscriptCount, curState, h]

/-- `syncTranscripts` on a missing source: early return, nothing mutated. -/
theorem sync_not_present (src : Source) (fault : DBFault) (c : Conn)
    (h : src.present = false) :
    syncTranscripts src fault c =
      (c, Except.ok { success := false, transcriptCount := 0, message := "JSON file not found" }) := by
  unfold syncTranscripts
  simp [h]

/-- `syncTranscripts` when the stored checkpoint equals the source mtime:
the already-in-sync branch, no mutation. -/
theorem sync_insync (src : Source) (fault : DBFault) (c : Conn)
    (hp : src.present = true) (hm : getLastSyncMtime c = some src.mtime) :
    syncTranscripts src fault c =
      (c, Except.ok { success := true, transcriptCount := getTranscriptCount c,
                      message := "Already in sync" }) := by
  unfold syncTranscripts
  simp [hp, hm]

/-- `syncTranscripts` when the document fails to read or decode: the throw
propagates, nothing mutated. -/
theorem sync_parse_fail (src : Source) (fault : DBFault) (c : Conn)
    (hp : src.present = true) (hm : ¬getLastSyncMtime c = some src.mtime)
    (hpar : src.parse = none) :
    syncTranscripts src fault c = (c, Except.error SyncError.decodeFailed) := by
  unfold syncTranscripts
  simp [hp, hm, hpar]

/-- `syncTranscripts` on the rebuild path when the replace throws: the
failure propagates after the rollback. -/
theorem sync_rebuild_err (src : Source) (fault : DBFault) (c c2 : Conn)
    (history : List TranscriptJSON) (e : DatabaseError) (hp : src.present = true)
    (hm : ¬getLastSyncMtime c = some src.mtime) (hpar : src.parse = some history)
    (hci : clearAndInsert fault history c = (c2, some e)) :
    syncTranscripts src fault c = (c2, Except.error (SyncError.db e)) := by
  unfold syncTranscripts
  simp [hp, hm, hpar, hci]

/-- `syncTranscripts` on the rebuild path when the replace commits: the
checkpoint is written afterwards and the new count reported. -/
theorem sync_rebuild_ok (src : Source) (fault : DBFault) (c c2 : Conn)
    (history : List TranscriptJSON) (hp : src.present = true)
    (hm : ¬getLastSyncMtime c = some src.mtime) (hpar : src.parse = some history)
    (hci : clearAndInsert fault history c = (c2, none)) :
    syncTranscripts src fault c =
      (setLastSyncMtime src.mtime c2,
        Except.ok { success := true,
                    transcriptCount := getTranscriptCount (setLastSyncMtime src.mtime c2),
                    message := "Synced " ++
                      toString (getTranscriptCount (setLastSyncMtime src.mtime c2)) ++
                      " transcripts" }) := by
  unfold syncTranscripts
  simp [hp, hm, hpar, hci]

/-- After any `syncTranscripts` call that reports `success = true`, the source
was present, the connection is idle, the stored checkpoint equals the source
mtime, and the reported count is the committed table's size. -/
theorem sync_success_state (src : Source) (fault : DBFault) (c : Conn)
    (h : c.pending = none) (r : SyncResult)
    (hr : (syncTranscripts src fault c).2 = Except.ok r) (hs : r.success = true) :
    src.present = true ∧
    (syncTranscripts src fault c).1.pending = none ∧
    (syncTranscripts src fault c).1.committed.syncMeta = some src.mtime ∧
    r.transcriptCount = (syncTranscripts src fault c).1.committed.transcripts.length := by
  by_cases hp : src.present = true
  case neg =>
    have hp' : src.present = false := by revert hp; cases src.present <;> simp
    rw [sync_not_present src fault c hp'] at hr
    simp at hr
    rw [← hr] at hs
    simp at hs
  case pos =>
    by_cases hm : getLastSyncMtime c = some src.mtime
    · rw [sync_insync src fault c hp hm] at hr ⊢
      simp at hr
      refine ⟨hp, h, ?_, ?_⟩
      · rw [← getLastSyncMtime_idle c h]; exact hm
      · rw [← hr, getTranscriptCount_idle c h]
    · cases hpar : src.parse with
      | none =>
        rw [sync_parse_fail src fault c hp hm hpar] at hr
        simp at hr
      | some history =>
        rcases hci : clearAndInsert fault history c with ⟨c2, err⟩
        cases err with
        | some e =>
          rw [sync_rebuild_err src fault c c2 history e hp hm hpar hci] at hr
          simp at hr
        | none =>
          have hok := clearAndInsert_ok_state fault history c h (by rw [hci])
          rw [hci] at hok
          simp only at hok
          rw [sync_rebuild_ok src fault c c2 history hp hm hpar hci] at hr ⊢
          simp at hr
          refine ⟨hp, ?_, ?_, ?_⟩
          · simp [setLastSyncMtime, applyStmt, hok.1]
          · simp [setLastSyncMtime, applyStmt, hok.1]
          · rw [← hr]
            simp [getTranscriptCount, curState, setLastSyncMtime, applyStmt, hok.1]

/-! ### Claim C3: checkpoint discipline -/

/-- Counterexample to claim C3 as stated: in `forceSync()` the database file
is deleted before the document is read, so when parsing fails the previously
stored checkpoint is not left unchanged — it is gone.  Concretely, on a
connection whose stored checkpoint is 5, a `forceSync` against a present but
undecodable source surfaces the failure yet leaves no checkpoint. -/
theorem forceSync_parse_fail_loses_checkpoint :
    connB.committed.syncMeta = some 5 ∧
    (forceSync srcBadParse DBFault.noFault connB).2 = Except.error SyncError.decodeFailed ∧
    (forceSync srcBadParse DBFault.noFault connB).1.committed.syncMeta = none := by
  decide

/-- Claim C3, amended to `sync()` alone: in every execution of
`syncTranscripts`, if parsing or the transactional replace fails, the whole
connection — checkpoint and mirror — is exactly as before the call and the
failure is surfaced; and whenever the stored checkpoint changed at all, the
call succeeded and the checkpoint now holds the source's modification marker
(the checkpoint write happens only after the replace has committed).
(`forceSync` deletes the database file up front, so on a subsequent failure
the previous checkpoint is already discarded rather than left unchanged.) -/
theorem sync_checkpoint_discipline (src : Source) (fault : DBFault) (c : Conn)
    (h : c.pending = none) :
    (∀ e, (syncTranscripts src fault c).2 = Except.error e →
      (syncTranscripts src fault c).1 = c) ∧
    ((syncTranscripts src fault c).1.committed.syncMeta ≠ c.committed.syncMeta →
      ∃ r, (syncTranscripts src fault c).2 = Except.ok r ∧ r.success = true ∧
        (syncTranscripts src fault c).1.committed.syncMeta = some src.mtime) := by
  by_cases hp : src.present = true
  case neg =>
    have hp' : src.present = false := by revert hp; cases src.present <;> simp
    rw [sync_not_present src fault c hp']
    exact ⟨fun e he => by simp at he, fun hne => absurd rfl hne⟩
  case pos =>
    by_cases hm : getLastSyncMtime c = some src.mtime
    · rw [sync_insync src fault c hp hm]
      exact ⟨fun e he => by simp at he, fun hne => absurd rfl hne⟩
    · cases hpar : src.parse with
      | none =>
        rw [sync_parse_fail src fault c hp hm hpar]
        exact ⟨fun e he => rfl, fun hne => absurd rfl hne⟩
      | some history =>
        rcases hci : clearAndInsert fault history c with ⟨c2, err⟩
        cases err with
        | some e2 =>
          rw [sync_rebuild_err src fault c c2 history e2 hp hm hpar hci]
          have hc2 : c2 = c := by
            have := clearAndInsert_error_rolls_back fault history c h e2 (by rw [hci])
            rw [hci] at this
            exact this
          exact ⟨fun e he => by simp [hc2], fun hne => absurd (by rw [hc2]) hne⟩
        | none =>
          have hok := clearAndInsert_ok_state fault history c h (by rw [hci])
          rw [hci] at hok
          simp only at hok
          rw [sync_rebuild_ok src fault c c2 history hp hm hpar hci]
          refine ⟨fun e he => by simp at he, fun _ => ⟨_, rfl, rfl, ?_⟩⟩
          simp [setLastSyncMtime, applyStmt, hok.1]

/-- Witness for C3 (amended): a failed parse in `sync()` leaves the
connection — checkpoint included — untouched. -/
theorem sync_checkpoint_discipline_witness :
    (syncTranscripts srcBadParse DBFault.noFault connB).1 = connB :=
  (sync_checkpoint_discipline srcBadParse DBFault.noFault connB rfl).1
    SyncError.decodeFailed (by decide)

/-! ### Claim C4: idempotence of sync -/

/-- Claim C4: after any `syncTranscripts` call that reports success against a
source, a second call against the unchanged source takes the already-in-sync
branch: it returns the connection unchanged (no write transaction — this
holds for every fault schedule on the second call, which never reaches the
store's mutating path) and reports the same row count. -/
theorem sync_idempotent (src : Source) (fault fault2 : DBFault) (c : Conn)
    (h : c.pending = none) (r : SyncResult)
    (h1 : (syncTranscripts src fault c).2 = Except.ok r) (hs : r.success = true) :
    syncTranscripts src fault2 (syncTranscripts src fault c).1 =
      ((syncTranscripts src fault c).1,
        Except.ok { success := true, transcriptCount := r.transcriptCount,
                    message := "Already in sync" }) := by
  rcases sync_success_state src fault c h r h1 hs with ⟨hp, hpend, hmeta, hcount⟩
  rw [sync_insync src fault2 (syncTranscripts src fault c).1 hp
      (by rw [getLastSyncMtime_idle _ hpend, hmeta]),
    getTranscriptCount_idle _ hpend, ← hcount]

/-- Witness for C4: a concrete first sync of one record, then a second call:
same count, already-in-sync, connection unchanged. -/
theorem sync_idempotent_witness :
    syncTranscripts srcOne DBFault.noFault (syncTranscripts srcOne DBFault.noFault connEmpty).1 =
      ((syncTranscripts srcOne DBFault.noFault connEmpty).1,
        Except.ok { success := true, transcriptCount := 1, message := "Already in sync" }) :=
  sync_idempotent srcOne DBFault.noFault DBFault.noFault connEmpty rfl
    { success := true, transcriptCount := 1, message := "Synced 1 transcripts" }
    (by decide) rfl

/-! ### Claim C5: staleness detection -/

/-- Claim C5: with the source document present, `needsSync` returns true when
no checkpoint is stored; with a checkpoint stored it returns true exactly when
the stored marker differs from the source's modification marker (an exact
equality comparison — the document content is never consulted); and
immediately after a `syncTranscripts` call that reported success against this
source it returns false. -/
theorem needsSync_spec (src : Source) (c : Conn) (hp : src.present = true) :
    (getLastSyncMtime c = none → needsSync src c = true) ∧
    (∀ m, getLastSyncMtime c = some m → (needsSync src c = true ↔ m ≠ src.mtime)) ∧
    (∀ fault r, c.pending = none → (syncTranscripts src fault c).2 = Except.ok r →
      r.success = true → needsSync src (syncTranscripts src fault c).1 = false) := by
  refine ⟨?_, ?_, ?_⟩
  · intro hnone
    simp [needsSync, hp, hnone]
  · intro m hm
    by_cases he : m = src.mtime
    · simp [needsSync, hp, hm, he]
    · simp [needsSync, hp, hm, he]
  · intro fault r h hr hs
    rcases sync_success_state src fault c h r hr hs with ⟨_, hpend, hmeta, _⟩
    simp [needsSync, hp, getLastSyncMtime_idle _ hpend, hmeta]

/-- Witness for C5: before any sync `needsSync` is true; after a successful
sync of `srcOne` it is false. -/
theorem needsSync_spec_witness :
    needsSync srcOne connEmpty = true ∧
    needsSync srcOne (syncTranscripts srcOne DBFault.noFault connEmpty).1 = false := by
  refine ⟨(needsSync_spec srcOne connEmpty rfl).1 rfl, ?_⟩
  exact (needsSync_spec srcOne connEmpty rfl).2.2 DBFault.noFault
    { success := true, transcriptCount := 1, message := "Synced 1 transcripts" }
    rfl (by decide) rfl

/-! ### Claim C6: behaviour when the source document is missing -/

/-- Counterexample to claim C6 as stated: `needsSync` does not fail with a
distinguishable outcome when the source document is missing — it returns
plain `false`, the very value it returns for an up-to-date mirror, so a
caller of `needsSync` cannot tell "not installed" apart from "in sync". -/
theorem needsSync_missing_indistinguishable :
    needsSync srcMissing connB = false ∧ needsSync srcInSync connB = false := by
  decide

/-- Claim C6, amended: when the source document does not exist, `needsSync`
returns `false` (indistinguishable from the in-sync answer); the "not
installed" state is distinguishable only through `syncTranscripts` /
`forceSync`, which return a `success = false` result carrying the
"JSON file not found" message (not an exception). -/
theorem missing_source_behavior (src : Source) (fault : DBFault) (c : Conn)
    (h : src.present = false) :
    needsSync src c = false ∧
    syncTranscripts src fault c =
      (c, Except.ok { success := false, transcriptCount := 0,
                      message := "JSON file not found" }) ∧
    forceSync src fault c =
      (c, Except.ok { success := false, transcriptCount := 0,
                      message := "JSON file not found" }) := by
  refine ⟨by simp [needsSync, h], sync_not_present src fault c h, ?_⟩
  unfold forceSync
  simp [h]

/-- Witness for C6 (amended) at the concrete missing source. -/
theorem missing_source_behavior_witness :
    needsSync srcMissing connB = false ∧
    syncTranscripts srcMissing DBFault.noFault connB =
      (connB, Except.ok { success := false, transcriptCount := 0,
                          message := "JSON file not found" }) ∧
    forceSync srcMissing DBFault.noFault connB =
      (connB, Except.ok { success := false, transcriptCount := 0,
                          message := "JSON file not found" }) :=
  missing_source_behavior srcMissing DBFault.noFault connB rfl

/-! ### Table-content lemmas for the insert loop -/

/-- Filtering an upserted table by id: the new row wins its own id, every
other id is untouched. -/
theorem filter_upsert_eq (T : List Row) (q : Row) (i : String) :
    (upsert T q).filter (fun r => r.id == i) =
      if q.id = i then [q] else T.filter (fun r => r.id == i) := by
  unfold upsert
  rw [List.filter_append, List.filter_filter]
  by_cases hq : q.id = i
  · rw [if_pos hq]
    have h1 : T.filter (fun a => (a.id == i) && !(a.id == q.id)) = [] := by
      rw [List.filter_eq_nil_iff]
      intro a _
      by_cases ha : a.id = i
      · simp [ha, hq]
      · simp [ha]
    rw [h1]
    simp [hq]
  · rw [if_neg hq]
    have h1 : T.filter (fun a => (a.id == i) && !(a.id == q.id)) =
        T.filter (fun a => a.id == i) := by
      apply List.filter_congr
      intro a _
      by_cases ha : a.id = i
      · have haq : ¬a.id = q.id := by
          intro hh
          exact hq (by rw [← hh, ha])
        simp [ha, haq]
        exact fun hh => hq hh.symm
      · simp [ha]
    rw [h1]
    simp [hq]

/-- The rows of a rebuilt table carrying a given id: the last valid input
record with that id wins; ids no valid record carries keep the initial
table's rows. -/
theorem insertRows_filter_by_id (i : String) (ts : List TranscriptJSON) :
    ∀ init : List Row,
      (insertRows init ts).filter (fun r => r.id == i) =
        ((validWith ts i).getLast?.map (fun t => [mkRow t])).getD
          (init.filter (fun r => r.id == i)) := by
  induction ts using List.reverseRecOn with
  | nil =>
    intro init
    simp [insertRows, validWith]
  | append_singleton ts t ih =>
    intro init
    have hsnoc : insertRows init (ts ++ [t]) = insertStep (insertRows init ts) t := by
      simp [insertRows, List.foldl_append]
    rw [hsnoc]
    by_cases hv : t.isValid
    · rcases isValid_text hv with ⟨x, ht⟩
      have hstep : insertStep (insertRows init ts) t =
          upsert (insertRows init ts) (mkRow t) := by
        simp [insertStep, hv, ht]
      rw [hstep, filter_upsert_eq]
      have hmk : (mkRow t).id = t.id := rfl
      by_cases hid : t.id = i
      · have hval : validWith (ts ++ [t]) i = validWith ts i ++ [t] := by
          simp [validWith, List.filter_append, hv, hid]
        rw [hval, List.getLast?_concat]
        simp [hmk, hid]
      · have hval : validWith (ts ++ [t]) i = validWith ts i := by
          simp [validWith, List.filter_append, hid]
        rw [hval, if_neg (by rw [hmk]; exact hid)]
        exact ih init
    · have hval : validWith (ts ++ [t]) i = validWith ts i := by
        simp [validWith, List.filter_append, hv]
      have hstep : insertStep (insertRows init ts) t = insertRows init ts := by
        simp [insertStep, hv]
      rw [hval, hstep]
      exact ih init

/-- Upserting a row whose id is fresh is a plain append. -/
theorem upsert_of_fresh_id (T : List Row) (q : Row) (h : ∀ r ∈ T, ¬r.id = q.id) :
    upsert T q = T ++ [q] := by
  unfold upsert
  congr 1
  apply List.filter_eq_self.mpr
  intro r hr
  simp [h r hr]

/-- When the valid records carry pairwise distinct ids (and none collides
with the initial table), the insert loop is a plain append of one row per
valid record, in input order. -/
theorem insertRows_of_nodup_ids (ts : List TranscriptJSON) :
    ∀ init : List Row,
      ((init.map Row.id) ++ ((validRecs ts).map TranscriptJSON.id)).Nodup →
      insertRows init ts = init ++ (validRecs ts).map mkRow := by
  induction ts with
  | nil =>
    intro init _
    simp [insertRows, validRecs]
  | cons t rest ih =>
    intro init h
    by_cases hv : t.isValid
    · rcases isValid_text hv with ⟨x, ht⟩
      have hvr : validRecs (t :: rest) = t :: validRecs rest := by
        simp [validRecs, hv]
      rw [hvr] at h
      rcases List.nodup_append.mp h with ⟨hn1, hn2, hdisj⟩
      have hfresh : ∀ r ∈ init, ¬r.id = (mkRow t).id := by
        intro r hr hh
        exact hdisj (List.mem_map_of_mem Row.id hr) (by rw [show (mkRow t).id = t.id from rfl] at hh; rw [hh]; exact List.mem_cons_self _ _)
      have hstep : insertRows init (t :: rest) = insertRows (upsert init (mkRow t)) rest := by
        simp [insertRows, insertStep, hv, ht]
      rw [hstep, upsert_of_fresh_id init (mkRow t) hfresh]
      have hnodup2 : (((init ++ [mkRow t]).map Row.id) ++
          ((validRecs rest).map TranscriptJSON.id)).Nodup := by
        have : (init ++ [mkRow t]).map Row.id = init.map Row.id ++ [t.id] := by
          simp [mkRow]
        rw [this, List.append_assoc]
        simpa using h
      rw [ih (init ++ [mkRow t]) hnodup2, hvr]
      simp
    · have hvr : validRecs (t :: rest) = validRecs rest := by
        simp [validRecs, hv]
      rw [hvr] at h
      have hstep : insertRows init (t :: rest) = insertRows init rest := by
        simp [insertRows, insertStep, hv]
      rw [hstep, ih init h, hvr]

/-- Every row of a rebuilt table is the image of some valid input record. -/
theorem mem_insertRows (ts : List TranscriptJSON) :
    ∀ (init : List Row) (r : Row), r ∈ insertRows init ts →
      r ∈ init ∨ ∃ t, t ∈ ts ∧ t.isValid = true ∧ r = mkRow t := by
  induction ts with
  | nil =>
    intro init r h
    exact Or.inl (by simpa [insertRows] using h)
  | cons t rest ih =>
    intro init r h
    have hstep : insertRows init (t :: rest) = insertRows (insertStep init t) rest := by
      simp [insertRows]
    rw [hstep] at h
    rcases ih _ r h with hin | ⟨u, hu, huv, hru⟩
    · by_cases hv : t.isValid
      · rcases isValid_text hv with ⟨x, ht⟩
        rw [show insertStep init t = upsert init (mkRow t) by simp [insertStep, hv, ht]] at hin
        rcases List.mem_append.mp hin with h1 | h2
        · exact Or.inl (List.mem_of_mem_filter h1)
        · exact Or.inr ⟨t, List.mem_cons_self _ _, hv, by simpa using h2⟩
      · rw [show insertStep init t = init by simp [insertStep, hv]] at hin
        exact Or.inl hin
    · exact Or.inr ⟨u, List.mem_cons_of_mem t hu, huv, hru⟩

/-! ### Claim C2: validity filter -/

/-- A record with `failedTranscription` status (invalid for mirroring). -/
def recBad : TranscriptJSON :=
  { id := "bad", text := some "nope", rawText := none, timestamp := 4,
    sourceType := "app", sourceIdentifier := "com.apple.Terminal", duration := 1,
    audioPath := none, dictateContext := none, syncedAt := none, status := stFailed }

/-- Counterexample to claim C2 as stated: a source document with N = 2
records, both valid (M = 2) but sharing the id `a`, syncs successfully into a
mirror of exactly one row — not "exactly those M records".  (The insert uses
insert-or-replace on the primary key, so duplicated ids collapse.) -/
theorem sync_dup_ids_drop_valid_record :
    (([recA, recA2].filter (fun t => t.isValid)).length = 2) ∧
    (syncTranscripts srcDup DBFault.noFault connEmpty).2 =
      Except.ok { success := true, transcriptCount := 1,
                  message := "Synced 1 transcripts" } ∧
    (syncTranscripts srcDup DBFault.noFault connEmpty).1.committed.transcripts.length = 1 := by
  decide

/-- Claim C2, amended: provided the valid records carry pairwise distinct
ids, a fault-free replace throws no error and mirrors exactly the M = length
(validRecs ts) records whose status is completed and whose text is present,
one row each in input order; the other N − M records are silently dropped.
(With duplicated ids the upsert of C7 collapses them to one row.) -/
theorem sync_validity_filter (ts : List TranscriptJSON) (c : Conn)
    (h : c.pending = none) (hn : ((validRecs ts).map TranscriptJSON.id).Nodup) :
    (clearAndInsert DBFault.noFault ts c).2 = none ∧
    (clearAndInsert DBFault.noFault ts c).1.committed.transcripts =
      (validRecs ts).map mkRow := by
  rw [clearAndInsert_noFault ts c h]
  refine ⟨rfl, ?_⟩
  simp only
  rw [tableOf, insertRows_of_nodup_ids ts [] (by simpa using hn)]
  simp

/-- Witness for C2 (amended): of a valid and an invalid record, exactly the
valid one is mirrored. -/
theorem sync_validity_filter_witness :
    (clearAndInsert DBFault.noFault [recA, recBad] connEmpty).2 = none ∧
    (clearAndInsert DBFault.noFault [recA, recBad] connEmpty).1.committed.transcripts =
      (validRecs [recA, recBad]).map mkRow :=
  sync_validity_filter [recA, recBad] connEmpty rfl (by decide)

/-! ### Claim C7: upsert-by-id, later record wins -/

/-- Claim C7: whenever the input of one sync pass contains at least two valid
records sharing an id, the rebuilt mirror contains exactly one row for that
id, and it is the row of the valid record processed last in input order. -/
theorem upsert_later_record_wins (ts : List TranscriptJSON) (i : String) (c : Conn)
    (h : c.pending = none) (hdup : 2 ≤ (validWith ts i).length) :
    ∃ tLast, (validWith ts i).getLast? = some tLast ∧
      ((clearAndInsert DBFault.noFault ts c).1.committed.transcripts.filter
        (fun r => r.id == i)) = [mkRow tLast] := by
  have hne : validWith ts i ≠ [] := by
    intro hh
    rw [hh] at hdup
    simp at hdup
  rcases Option.isSome_iff_exists.mp (List.getLast?_isSome.mpr hne) with ⟨tLast, hl⟩
  refine ⟨tLast, hl, ?_⟩
  rw [clearAndInsert_noFault ts c h]
  simp only
  rw [tableOf, insertRows_filter_by_id i ts [], hl]
  simp

/-- Witness for C7: two valid records with id `a`; the mirror holds one row,
that of the later record. -/
theorem upsert_later_record_wins_witness :
    ((clearAndInsert DBFault.noFault [recA, recA2] connEmpty).1.committed.transcripts.filter
      (fun r => r.id == "a")) = [mkRow recA2] := by
  rcases upsert_later_record_wins [recA, recA2] "a" connEmpty rfl (by decide)
    with ⟨tLast, h1, h2⟩
  have hL : (validWith [recA, recA2] "a").getLast? = some recA2 := by decide
  have heq : tLast = recA2 := Option.some_inj.mp (h1.symm.trans hL)
  rw [heq] at h2
  exact h2

/-! ### Claim C8: the raw-text fallback -/

/-- Claim C8: every row of a rebuilt mirror comes from a valid source record,
and its `raw_text` column equals that record's `rawText` when present and its
`text` otherwise (`effectiveRawText = rawText ?? text`); the column's type is
`String`, so it is never null in the mirror. -/
theorem mirror_raw_text_fallback (ts : List TranscriptJSON) (c : Conn) (r : Row)
    (h : c.pending = none)
    (hr : r ∈ (clearAndInsert DBFault.noFault ts c).1.committed.transcripts) :
    ∃ t, t ∈ ts ∧ t.isValid = true ∧ r = mkRow t ∧
      r.raw_text = t.rawText.getD (t.text.getD "") := by
  rw [clearAndInsert_noFault ts c h] at hr
  simp only at hr
  rcases mem_insertRows ts [] r (by simpa [tableOf] using hr) with hin | ⟨t, ht, hv, hrt⟩
  · simp at hin
  · exact ⟨t, ht, hv, hrt, by rw [hrt]; rfl⟩

/-- Witness for C8: a record with `rawText` absent and `text = "hello"` is
mirrored with `raw_text = "hello"`. -/
theorem mirror_raw_text_fallback_witness :
    recHello.rawText = none ∧ (mkRow recHello).raw_text = "hello" := by
  rcases mirror_raw_text_fallback [recHello] connEmpty (mkRow recHello) rfl (by decide)
    with ⟨t, ht, _, _, hrt⟩
  have heq : t = recHello := by simpa using ht
  rw [heq] at hrt
  exact ⟨rfl, by rw [hrt]; rfl⟩
